import Mathlib

/-!
Verification of the nasdisplay host-status display daemon
(src/app/oled_hello.py) against its natural-language design document.

The program is shallowly embedded: strings are lists of characters,
Python floats are rationals, the pixel-width measuring capability of the
font/draw object is an arbitrary function from strings to rationals, OS
data sources (files, subprocesses, sockets) are explicit inputs, a read
or parse that raises an exception is an explicit error value, and the
main loop is a step function over an explicit state.  Python round and
format rounding is modelled with Mathlib round (round half up; CPython
rounds half to even, the two agree everywhere except exact ties, and no
property below depends on a tie).
-/

/-! ### Display configuration (source lines 8-9) -/

def WIDTH : ℕ := 128

def HEIGHT : ℕ := 64

/-! ### TextFitter: fit (source lines 94-101)

Python:
  def fit(draw, text, max_w, font):
      if draw.textlength(text, font=font) <= max_w:
          return text
      alt = text
      while alt and draw.textlength(alt + "…", font=font) > max_w:
          alt = alt[:-1]
      return (alt + "…") if alt else text[:1]

The while loop removes the last character each iteration; it is encoded
structurally on the reversed string (dropping the last character of alt
is dropping the head of alt.reverse), so that the definition is plain
structural recursion.
-/

def ellipsis : Char := '…'

def fitLoopRev (m : List Char → ℚ) (w : ℚ) : List Char → List Char
  | [] => []
  | c :: rest =>
    if w < m ((c :: rest).reverse ++ [ellipsis]) then fitLoopRev m w rest
    else c :: rest

def fitLoop (m : List Char → ℚ) (w : ℚ) (alt : List Char) : List Char :=
  (fitLoopRev m w alt.reverse).reverse

def fit (m : List Char → ℚ) (w : ℚ) (text : List Char) : List Char :=
  if m text ≤ w then text
  else if fitLoop m w text = [] then text.take 1
  else fitLoop m w text ++ [ellipsis]

/-! ### Decimal rendering helpers

Python float formatting is modelled for rationals: round1 is round(x, 1) and
fmt1 is the format specifier .1f (sign, integer digits, one fractional
digit).
-/

def digitChar (d : ℕ) : Char := Char.ofNat (48 + d)

def natToCharsAux (fuel n : ℕ) : List Char :=
  match fuel with
  | 0 => []
  | fuel + 1 =>
    if n < 10 then [digitChar n]
    else natToCharsAux fuel (n / 10) ++ [digitChar (n % 10)]

def natToChars (n : ℕ) : List Char := natToCharsAux (n + 1) n

def intToChars (i : ℤ) : List Char :=
  if i < 0 then '-' :: natToChars i.natAbs else natToChars i.natAbs

def round1 (q : ℚ) : ℚ := ((round (10 * q) : ℤ) : ℚ) / 10

def fmt1 (q : ℚ) : List Char :=
  (if round (10 * q) < 0 then ['-'] else []) ++
    natToChars ((round (10 * q)).natAbs / 10) ++
      ['.', digitChar ((round (10 * q)).natAbs % 10)]

/-! ### MetricSnapshot and LineFormatter (source lines 121-139)

One loop iteration samples ip, cpu, temp, ram, disk (mount is the static
MOUNT configuration) and builds the four lines.
-/

structure Snapshot where
  ip : List Char
  cpu : ℚ
  temp : Option ℚ
  ram : ℚ
  disk : ℚ
  mount : List Char

def line1 (ip : List Char) : List Char := "IP: ".toList ++ ip

def base2 (cpu : ℚ) : List Char := "CPU:".toList ++ fmt1 cpu ++ "%".toList

def line2_precise (cpu : ℚ) : Option ℚ → List Char
  | some t => base2 cpu ++ "  T:".toList ++ fmt1 t ++ "°C".toList
  | none => base2 cpu

def line2_ints (cpu : ℚ) : Option ℚ → List Char
  | some t =>
    "CPU:".toList ++ intToChars (round cpu) ++ "%  T:".toList ++
      intToChars (round t) ++ "°C".toList
  | none => base2 cpu

def line3 (ram : ℚ) : List Char := "RAM:".toList ++ fmt1 ram ++ "%".toList

def line4 (mount : List Char) (disk : ℚ) : List Char :=
  "DISK(".toList ++ mount ++ "):".toList ++ fmt1 disk ++ "%".toList

/-! ### The canvas block (source lines 141-152)

Line 2 is drawn from the precise variant unless its width exceeds max_w, in
which case the integer variant is substituted; the chosen variant then goes
through fit, as do lines 1, 3 and 4.
-/

def drawnLine2 (m : List Char → ℚ) (cpu : ℚ) (temp : Option ℚ) : List Char :=
  fit m (WIDTH : ℚ)
    (if (WIDTH : ℚ) < m (line2_precise cpu temp) then line2_ints cpu temp
     else line2_precise cpu temp)

def frameLines (m : List Char → ℚ) (s : Snapshot) : List (List Char) :=
  [fit m (WIDTH : ℚ) (line1 s.ip),
   drawnLine2 m s.cpu s.temp,
   fit m (WIDTH : ℚ) (line3 s.ram),
   fit m (WIDTH : ℚ) (line4 s.mount s.disk)]

/-! ### MetricSource: cpu, temperature, memory, disk (source lines 44-92)

Text data sources are modelled pre-tokenised: /proc/stat as labelled integer
rows (first token of the line, then its numeric fields) and /proc/meminfo as
key/value pairs in kB.  none models a source whose read or parse raises; an
Except.error result is an exception escaping to the caller.
-/

def read_stat_lines : List (String × List ℤ) → Except Unit (ℤ × ℤ)
  | [] => Except.ok (0, 0)
  | (lbl, parts) :: rest =>
    if lbl = "cpu" then
      match parts[3]?, parts[4]? with
      | some p3, some p4 => Except.ok (p3 + p4, parts.sum)
      | _, _ => Except.error ()
    else read_stat_lines rest

def read_stat : Option (List (String × List ℤ)) → Except Unit (ℤ × ℤ)
  | none => Except.error ()
  | some ls => read_stat_lines ls

def cpuFromReads (r1 r2 : ℤ × ℤ) : ℚ :=
  if 0 < ((r2.2 - r1.2 : ℤ) : ℚ) then
    round1 (100 * (1 - ((r2.1 - r1.1 : ℤ) : ℚ) / ((r2.2 - r1.2 : ℤ) : ℚ)))
  else 0

def cpu_usage_percent (f1 f2 : Option (List (String × List ℤ))) : Except Unit ℚ :=
  match read_stat f1 with
  | Except.error e => Except.error e
  | Except.ok r1 =>
    match read_stat f2 with
    | Except.error e => Except.error e
    | Except.ok r2 => Except.ok (cpuFromReads r1 r2)

def read_temp_c (sensors : List (Option ℚ)) (vcgencmd : Option ℚ) : Option ℚ :=
  match sensors.findSome? id with
  | some v => some (round1 (if 1000 < v then v / 1000 else v))
  | none =>
    match vcgencmd with
    | some v => some (round1 v)
    | none => none

def memPercentOf (total avail : ℤ) : ℚ :=
  if total ≠ 0 then round1 (100 * ((total : ℚ) - (avail : ℚ)) / (total : ℚ)) else 0

def mem_usage_percent : Option (List (String × ℤ)) → Except Unit ℚ
  | none => Except.error ()
  | some mem =>
    Except.ok (memPercentOf ((List.lookup ("MemTotal") mem).getD 0)
      ((List.lookup ("MemAvailable") mem).getD 0))

def disk_usage_percent : Option (ℤ × ℤ) → ℚ
  | none => 0
  | some (used, total) =>
    if total ≠ 0 then round1 (((used : ℚ) / (total : ℚ)) * 100) else 0

/-! ### resolve_ip: get_ip (source lines 17-42)

Python str.strip, str.split() and str.splitlines are implemented on
character lists; command outputs and the socket trick are inputs, with a
raised exception as an error value.  In the source the whole body sits in
one try block whose except clause returns the literal fallback, so an error
anywhere short-circuits to it.
-/

def pyStrip (l : List Char) : List Char :=
  ((l.dropWhile Char.isWhitespace).reverse.dropWhile Char.isWhitespace).reverse

def pySplitAux : List Char → List Char → List (List Char)
  | [], acc => if acc = [] then [] else [acc.reverse]
  | c :: rest, acc =>
    if c.isWhitespace then
      if acc = [] then pySplitAux rest [] else acc.reverse :: pySplitAux rest []
    else pySplitAux rest (c :: acc)

def pySplit (l : List Char) : List (List Char) := pySplitAux l []

def pyLinesAux : List Char → List Char → List (List Char)
  | [], acc => [acc.reverse]
  | c :: rest, acc =>
    if c = '\n' then acc.reverse :: pyLinesAux rest [] else pyLinesAux rest (c :: acc)

def pyLines (l : List Char) : List (List Char) := pyLinesAux l []

def ifaceTokenIp (p : List Char) : Option (List Char) :=
  if p.contains '/' ∧ p.count ('.') = 3 then some (p.takeWhile (· ≠ '/')) else none

def findIfaceIp (out : List Char) : Option (List Char) :=
  (pyLines out).findSome? fun line => (pySplit line).findSome? ifaceTokenIp

def findSrc : List (List Char) → Option (List Char)
  | t :: next :: rest =>
    if t = "src".toList then some next else findSrc (next :: rest)
  | _ => none

structure IpEnv where
  hostIp : Option (List Char)
  iface : Option (List Char)
  ifaceOut : Except Unit (List Char)
  routeOut : Except Unit (List Char)
  socketIp : Except Unit (List Char)

def truthy : Option (List Char) → Bool
  | none => false
  | some s => !s.isEmpty

def get_ip_tier34 (env : IpEnv) : Except Unit (List Char) :=
  match env.routeOut with
  | Except.error e => Except.error e
  | Except.ok rout =>
    match findSrc (pySplit rout) with
    | some ip => Except.ok ip
    | none => env.socketIp

def get_ip_core (env : IpEnv) : Except Unit (List Char) :=
  if truthy env.hostIp then Except.ok (pyStrip (env.hostIp.getD []))
  else if truthy env.iface then
    match env.ifaceOut with
    | Except.error e => Except.error e
    | Except.ok out =>
      match findIfaceIp (pyStrip out) with
      | some ip => Except.ok ip
      | none => get_ip_tier34 env
  else get_ip_tier34 env

def get_ip (env : IpEnv) : List Char :=
  match get_ip_core env with
  | Except.ok ip => ip
  | Except.error _ => "0.0.0.0".toList

/-- The tiers 3 and 4 shared by the claimed and the amended resolver: the
route-table src address, else the UDP-connect address, else the literal
fallback. -/
def specTier34 (env : IpEnv) : List Char :=
  match env.routeOut with
  | Except.ok rout =>
    match findSrc (pySplit rout) with
    | some ip => ip
    | none =>
      match env.socketIp with
      | Except.ok ip => ip
      | Except.error _ => "0.0.0.0".toList
  | Except.error _ =>
    match env.socketIp with
    | Except.ok ip => ip
    | Except.error _ => "0.0.0.0".toList

/-- resolve_ip exactly as C6 and the spec state it: four tiers, each tier
attempted if and only if every previous tier is unavailable or fails, the
configured override returned verbatim. -/
def resolveIpSpec (env : IpEnv) : List Char :=
  if truthy env.hostIp then env.hostIp.getD []
  else if truthy env.iface then
    match env.ifaceOut with
    | Except.ok out =>
      match findIfaceIp (pyStrip out) with
      | some ip => ip
      | none => specTier34 env
    | Except.error _ => specTier34 env
  else specTier34 env

/-- The resolver as the code actually behaves (amended C6): the override is
whitespace-stripped, and a raised error in the tier 2 command aborts directly
to the literal fallback instead of trying tier 3; likewise a tier 3 route
command error skips the socket trick. -/
def resolveIpAmended (env : IpEnv) : List Char :=
  if truthy env.hostIp then pyStrip (env.hostIp.getD [])
  else if truthy env.iface then
    match env.ifaceOut with
    | Except.ok out =>
      match findIfaceIp (pyStrip out) with
      | some ip => ip
      | none =>
        match env.routeOut with
        | Except.ok rout =>
          match findSrc (pySplit rout) with
          | some ip => ip
          | none =>
            match env.socketIp with
            | Except.ok ip => ip
            | Except.error _ => "0.0.0.0".toList
        | Except.error _ => "0.0.0.0".toList
    | Except.error _ => "0.0.0.0".toList
  else
    match env.routeOut with
    | Except.ok rout =>
      match findSrc (pySplit rout) with
      | some ip => ip
      | none =>
        match env.socketIp with
        | Except.ok ip => ip
        | Except.error _ => "0.0.0.0".toList
    | Except.error _ => "0.0.0.0".toList

/-! ### DisplaySession and Supervisor loop (source lines 103-159)

open_display retries until the bus initialisation succeeds and returns a
freshly constructed device, so each successful acquisition has a new handle
identity.  The module initialises device once (source line 116); the while
True loop (119-159) samples, formats and draws, and its except clause only
prints and sleeps.  An iteration is driven by the sampled snapshot, the
font's measuring function and a flag telling whether anything in the body
(the display transport included) raises.
-/

structure SupState where
  handleId : ℕ

def open_display (freshId : ℕ) : SupState := ⟨freshId⟩

structure IterInput where
  snap : Snapshot
  m : List Char → ℚ
  fault : Bool

/-- One pass of the loop body: on success the frame is drawn with the current
handle; on an exception the handler logs and sleeps, leaving the state
untouched.  The body contains no call to open_display. -/
def loopIter (s : SupState) (inp : IterInput) :
    SupState × Option (ℕ × List (List Char)) :=
  if inp.fault then (s, none)
  else (s, some (s.handleId, frameLines inp.m inp.snap))

def runLoop (s : SupState) :
    List IterInput → SupState × List (Option (ℕ × List (List Char)))
  | [] => (s, [])
  | inp :: rest =>
    let step := loopIter s inp
    let later := runLoop step.1 rest
    (later.1, step.2 :: later.2)

/-! ### Concrete inputs used by witnesses and counterexamples -/

def snap0 : Snapshot :=
  { ip := "0.0.0.0".toList, cpu := 0, temp := none, ram := 0, disk := 0,
    mount := "/".toList }

def mBig : List Char → ℚ := fun _ => 200

def statA : Option (List (String × List ℤ)) := some [("cpu", [0, 0, 0, 100, 100])]

def statB : Option (List (String × List ℤ)) := some [("cpu", [300, 0, 0, 0, 0])]

def statC : Option (List (String × List ℤ)) := some [("cpu", [100, 0, 0, 80, 20])]

def statD : Option (List (String × List ℤ)) := some [("cpu", [150, 0, 0, 120, 30])]

def statE : Option (List (String × List ℤ)) := some [("cpu", [0, 0, 0, 0, 0])]

def memB : List (String × ℤ) := [("MemTotal", 2000000), ("MemAvailable", 500000)]

def cexEnv : IpEnv :=
  { hostIp := none
    iface := some ("eth0".toList)
    ifaceOut := Except.error ()
    routeOut := Except.ok ("1.1.1.1 dev eth0 src 10.0.0.5".toList)
    socketIp := Except.error () }

def faultyInput : IterInput := { snap := snap0, m := mBig, fault := true }

def okInput : IterInput := { snap := snap0, m := mBig, fault := false }

/-! ### Theorems -/

theorem fitLoopRev_fits (m : List Char → ℚ) (w : ℚ) :
    ∀ l : List Char, fitLoopRev m w l ≠ [] →
      ¬ w < m ((fitLoopRev m w l).reverse ++ [ellipsis]) := by
  intro l
  induction l with
  | nil => intro h; simp [fitLoopRev] at h
  | cons c rest ih =>
    intro h
    by_cases hc : w < m ((c :: rest).reverse ++ [ellipsis])
    · rw [fitLoopRev, if_pos hc] at h ⊢
      exact ih h
    · rw [fitLoopRev, if_neg hc]
      exact hc

theorem fitLoopRev_nil (m : List Char → ℚ) (w : ℚ) :
    ∀ l : List Char, fitLoopRev m w l = [] →
      l = [] ∨ ∃ c, l.getLast? = some c ∧ w < m [c, ellipsis] := by
  intro l
  induction l with
  | nil => intro _; exact Or.inl rfl
  | cons c rest ih =>
    intro h
    by_cases hc : w < m ((c :: rest).reverse ++ [ellipsis])
    · rw [fitLoopRev, if_pos hc] at h
      rcases ih h with hrest | ⟨c', hlast, hlt⟩
      · subst hrest
        refine Or.inr ⟨c, by simp, ?_⟩
        simpa [ellipsis] using hc
      · refine Or.inr ⟨c', ?_, hlt⟩
        cases rest with
        | nil => simp at hlast
        | cons b bs => simpa [List.getLast?] using hlast
    · rw [fitLoopRev, if_neg hc] at h
      simp at h

theorem fitLoop_fits (m : List Char → ℚ) (w : ℚ) (t : List Char)
    (h : fitLoop m w t ≠ []) : m (fitLoop m w t ++ [ellipsis]) ≤ w := by
  have h' : fitLoopRev m w t.reverse ≠ [] := by
    intro hx; apply h; simp [fitLoop, hx]
  have := fitLoopRev_fits m w t.reverse h'
  rw [fitLoop]
  exact not_lt.mp this

theorem fitLoop_nil (m : List Char → ℚ) (w : ℚ) (t : List Char)
    (h : fitLoop m w t = []) :
    t = [] ∨ w < m (t.take 1 ++ [ellipsis]) := by
  have h' : fitLoopRev m w t.reverse = [] := by
    have := congrArg List.reverse h
    simpa [fitLoop] using this
  rcases fitLoopRev_nil m w t.reverse h' with hnil | ⟨c, hlast, hlt⟩
  · left; simpa using hnil
  · right
    have hhead : t.head? = some c := by
      rw [List.getLast?_reverse] at hlast
      exact hlast
    cases t with
    | nil => simp at hhead
    | cons a rest =>
      have : a = c := by simpa using hhead
      subst this
      simpa using hlt

theorem fit_of_le (m : List Char → ℚ) (w : ℚ) (t : List Char)
    (h : m t ≤ w) : fit m w t = t := by
  simp [fit, h]

theorem fit_cases (m : List Char → ℚ) (w : ℚ) (s : List Char) :
    m (fit m w s) ≤ w ∨
      (fit m w s = s.take 1 ∧ (s = [] ∨ w < m (s.take 1 ++ [ellipsis]))) := by
  by_cases h : m s ≤ w
  · left; rw [fit_of_le m w s h]; exact h
  · by_cases h2 : fitLoop m w s = []
    · right
      constructor
      · simp [fit, h, h2]
      · exact fitLoop_nil m w s h2
    · left
      have hle := fitLoop_fits m w s h2
      have : fit m w s = fitLoop m w s ++ [ellipsis] := by simp [fit, h, h2]
      rw [this]
      exact hle

theorem fit_empty (m : List Char → ℚ) (w : ℚ) : fit m w [] = [] := by
  by_cases h : m [] ≤ w <;> simp [fit, fitLoop, fitLoopRev, h]

/-- C2: for every pixel-width budget w ≥ 1, every string s and every
measuring function m, fit returns either a string of measured width at
most w, or — only when even the single first character followed by the
ellipsis does not fit — the single first character of the original
string. -/
theorem fit_width_or_first_char (m : List Char → ℚ) (w : ℚ) (s : List Char)
    (_hw : 1 ≤ w) :
    m (fit m w s) ≤ w ∨
      (fit m w s = s.take 1 ∧ (s = [] ∨ w < m (s.take 1 ++ [ellipsis]))) :=
  fit_cases m w s

theorem fit_width_or_first_char_witness :
    (1 : ℚ) ≤ 128 ∧
      ((fun _ => (0 : ℚ)) (fit (fun _ => (0 : ℚ)) 128 "abc".toList) ≤ 128 ∨
        (fit (fun _ => (0 : ℚ)) 128 "abc".toList = ("abc".toList).take 1 ∧
          ("abc".toList = [] ∨
            128 < (fun _ => (0 : ℚ)) (("abc".toList).take 1 ++ [ellipsis])))) :=
  ⟨by norm_num, fit_width_or_first_char (fun _ => (0 : ℚ)) 128 "abc".toList (by norm_num)⟩

/-- C8: fit is idempotent: refitting an already fitted string with the
same budget and measuring function leaves it unchanged. -/
theorem fit_idempotent (m : List Char → ℚ) (w : ℚ) (s : List Char) :
    fit m w (fit m w s) = fit m w s := by
  by_cases h : m s ≤ w
  · rw [fit_of_le m w s h, fit_of_le m w s h]
  · by_cases h2 : fitLoop m w s = []
    · have hs : fit m w s = s.take 1 := by simp [fit, h, h2]
      rw [hs]
      cases s with
      | nil => simp [fit_empty]
      | cons a rest =>
        rcases fitLoop_nil m w (a :: rest) h2 with hnil | hlt
        · exact absurd hnil (by simp)
        · simp only [List.take_succ_cons, List.take_zero] at hlt ⊢
          by_cases h3 : m [a] ≤ w
          · exact fit_of_le m w [a] h3
          · have hloop : fitLoop m w [a] = [] := by
              simp only [fitLoop, fitLoopRev, List.reverse_cons, List.reverse_nil,
                List.nil_append]
              rw [if_pos (by simpa using hlt)]
              simp [fitLoopRev]
            simp [fit, h3, hloop]
    · have hs : fit m w s = fitLoop m w s ++ [ellipsis] := by simp [fit, h, h2]
      rw [hs]
      exact fit_of_le m w _ (fitLoop_fits m w s h2)

theorem digitChar_ne_T {d : ℕ} (h : d < 10) : digitChar d ≠ 'T' := by
  interval_cases d <;> decide

theorem natToCharsAux_no_T (fuel : ℕ) : ∀ n, 'T' ∉ natToCharsAux fuel n := by
  induction fuel with
  | zero => intro n; simp [natToCharsAux]
  | succ fuel ih =>
    intro n
    by_cases h : n < 10
    · simp only [natToCharsAux, if_pos h, List.mem_singleton]
      exact fun e => digitChar_ne_T h e.symm
    · simp only [natToCharsAux, if_neg h, List.mem_append, List.mem_singleton]
      rintro (hmem | e)
      · exact ih _ hmem
      · exact digitChar_ne_T (Nat.mod_lt n (by norm_num)) e.symm

theorem natToChars_no_T (n : ℕ) : 'T' ∉ natToChars n := natToCharsAux_no_T _ n

theorem fmt1_no_T (q : ℚ) : 'T' ∉ fmt1 q := by
  intro hmem
  simp only [fmt1, List.mem_append] at hmem
  rcases hmem with (hs | hd) | hf
  · by_cases h : round (10 * q) < 0
    · rw [if_pos h] at hs; simp at hs
    · rw [if_neg h] at hs; simp at hs
  · exact natToChars_no_T _ hd
  · simp only [List.mem_cons] at hf
    rcases hf with e | e | e
    · exact absurd e (by decide)
    · exact digitChar_ne_T (Nat.mod_lt _ (by norm_num)) e.symm
    · exact absurd e (List.not_mem_nil _)

/-- C9: when temperature sampling returns absent, the CPU line is exactly
the string CPU: followed by the one-decimal cpu value and a percent sign;
no temperature segment appears in it at all (the letter T never occurs). -/
theorem cpu_line_temp_absent (cpu : ℚ) :
    line2_precise cpu none = "CPU:".toList ++ fmt1 cpu ++ "%".toList ∧
      (line2_precise cpu none).count ('T') = 0 := by
  refine ⟨rfl, List.count_eq_zero.mpr ?_⟩
  intro hmem
  simp only [line2_precise, base2, List.mem_append] at hmem
  rcases hmem with (hc | hf) | hp
  · revert hc; decide
  · exact fmt1_no_T cpu hf
  · revert hp; decide

/-- C10: with temperature absent the integer-fallback variant of line 2 is
the identical string to the precise variant, so whichever branch the width
test takes, the drawn line is the fit of the one-decimal CPU-only string. -/
theorem line2_int_tier_noop (m : List Char → ℚ) (cpu : ℚ) :
    line2_ints cpu none = line2_precise cpu none ∧
      drawnLine2 m cpu none = fit m (WIDTH : ℚ) (base2 cpu) := by
  refine ⟨rfl, ?_⟩
  simp only [drawnLine2, line2_ints, line2_precise, ite_self]

/-- C3: with temperature present, when the precise line fits the width
budget it is drawn unchanged, and when it overflows the integer-rounded
variant is substituted and passed through fit — the precise variant is
never ellipsis-truncated. -/
theorem line2_two_tier (m : List Char → ℚ) (cpu t : ℚ) :
    drawnLine2 m cpu (some t) =
      if m (line2_precise cpu (some t)) ≤ (WIDTH : ℚ) then
        line2_precise cpu (some t)
      else fit m (WIDTH : ℚ) (line2_ints cpu (some t)) := by
  by_cases h : m (line2_precise cpu (some t)) ≤ (WIDTH : ℚ)
  · rw [if_pos h]
    rw [drawnLine2, if_neg (not_lt.mpr h)]
    exact fit_of_le _ _ _ h
  · rw [if_neg h, drawnLine2, if_pos (not_le.mp h)]

theorem line1_ne_nil (ip : List Char) : line1 ip ≠ [] := by
  rw [line1, show ("IP: ".toList) = 'I' :: "P: ".toList from rfl]
  simp

theorem base2_ne_nil (cpu : ℚ) : base2 cpu ≠ [] := by
  rw [base2, show ("CPU:".toList) = 'C' :: "PU:".toList from rfl]
  simp

theorem line2_precise_ne_nil (cpu : ℚ) (temp : Option ℚ) :
    line2_precise cpu temp ≠ [] := by
  cases temp with
  | none => exact base2_ne_nil cpu
  | some t =>
    rw [line2_precise]
    intro h
    exact base2_ne_nil cpu (List.append_eq_nil.mp
      (List.append_eq_nil.mp (List.append_eq_nil.mp h).1).1).1

theorem line2_ints_ne_nil (cpu : ℚ) (temp : Option ℚ) :
    line2_ints cpu temp ≠ [] := by
  cases temp with
  | none => exact base2_ne_nil cpu
  | some t =>
    rw [line2_ints, show ("CPU:".toList) = 'C' :: "PU:".toList from rfl]
    simp

theorem line3_ne_nil (ram : ℚ) : line3 ram ≠ [] := by
  rw [line3, show ("RAM:".toList) = 'R' :: "AM:".toList from rfl]
  simp

theorem line4_ne_nil (mount : List Char) (disk : ℚ) : line4 mount disk ≠ [] := by
  rw [line4, show ("DISK(".toList) = 'D' :: "ISK(".toList from rfl]
  simp

theorem fit_line_cases (m : List Char → ℚ) (w : ℚ) (t : List Char) (ht : t ≠ []) :
    m (fit m w t) ≤ w ∨
      ((fit m w t).length = 1 ∧ w < m (fit m w t ++ [ellipsis])) := by
  rcases fit_cases m w t with h | ⟨heq, hcase⟩
  · exact Or.inl h
  · right
    rcases hcase with hnil | hlt
    · exact absurd hnil ht
    · cases t with
      | nil => exact absurd rfl ht
      | cons a rest =>
        simp only [List.take_succ_cons, List.take_zero] at heq hlt
        rw [heq]
        exact ⟨rfl, hlt⟩

/-- C1 as stated is false: with a measuring function that reports every
string as 200 pixels wide, the first line handed to the draw operation
still measures 200 pixels against the 128 pixel display width. -/
theorem frame_width_counterexample :
    ¬ ∀ l ∈ frameLines mBig snap0, mBig l ≤ (WIDTH : ℚ) := by
  intro h
  have hmem : fit mBig (WIDTH : ℚ) (line1 snap0.ip) ∈ frameLines mBig snap0 := by
    simp [frameLines]
  have h200 : (200 : ℚ) ≤ 128 := by
    simpa [mBig, WIDTH] using h _ hmem
  norm_num at h200

/-- C1 amended: every line handed to the draw operation either measures
within the 128 pixel display width, or is the single-character last
resort, in which case even that character followed by the ellipsis
overflows the budget. -/
theorem frame_lines_width (m : List Char → ℚ) (s : Snapshot) :
    ∀ l ∈ frameLines m s,
      m l ≤ (WIDTH : ℚ) ∨ (l.length = 1 ∧ (WIDTH : ℚ) < m (l ++ [ellipsis])) := by
  intro l hl
  simp only [frameLines, List.mem_cons, List.mem_singleton] at hl
  rcases hl with h1 | h2 | h3 | h4 | hnil
  · rw [h1]; exact fit_line_cases m _ _ (line1_ne_nil s.ip)
  · rw [h2, drawnLine2]
    by_cases hc : (WIDTH : ℚ) < m (line2_precise s.cpu s.temp)
    · rw [if_pos hc]
      exact fit_line_cases m _ _ (line2_ints_ne_nil s.cpu s.temp)
    · rw [if_neg hc]
      exact fit_line_cases m _ _ (line2_precise_ne_nil s.cpu s.temp)
  · rw [h3]; exact fit_line_cases m _ _ (line3_ne_nil s.ram)
  · rw [h4]; exact fit_line_cases m _ _ (line4_ne_nil s.mount s.disk)
  · exact absurd hnil (List.not_mem_nil l)

theorem frame_lines_width_witness :
    (fun _ => (0 : ℚ)) (fit (fun _ => (0 : ℚ)) (WIDTH : ℚ) (line1 snap0.ip)) ≤ (WIDTH : ℚ) ∨
      ((fit (fun _ => (0 : ℚ)) (WIDTH : ℚ) (line1 snap0.ip)).length = 1 ∧
        (WIDTH : ℚ) <
          (fun _ => (0 : ℚ)) (fit (fun _ => (0 : ℚ)) (WIDTH : ℚ) (line1 snap0.ip) ++ [ellipsis])) :=
  frame_lines_width (fun _ => (0 : ℚ)) snap0 _ (by simp [frameLines])

theorem round1_nonneg {q : ℚ} (h : 0 ≤ q) : 0 ≤ round1 q := by
  rw [round1]
  have h0 : (0 : ℤ) ≤ round (10 * q) := by
    rw [round_eq]
    refine Int.le_floor.mpr ?_
    push_cast
    linarith
  have hc : (0 : ℚ) ≤ ((round (10 * q) : ℤ) : ℚ) := by exact_mod_cast h0
  linarith

theorem round1_le_100 {q : ℚ} (h : q ≤ 100) : round1 q ≤ 100 := by
  rw [round1]
  have h0 : round (10 * q) ≤ 1000 := by
    rw [round_eq]
    have hf : ⌊10 * q + 1 / 2⌋ < 1001 := by
      refine Int.floor_lt.mpr ?_
      push_cast
      linarith
    omega
  have hc : ((round (10 * q) : ℤ) : ℚ) ≤ 1000 := by exact_mod_cast h0
  linarith

theorem cpuFromReads_range (r1 r2 : ℤ × ℤ) (h1 : r1.1 ≤ r2.1)
    (h2 : r2.1 - r1.1 ≤ r2.2 - r1.2) :
    0 ≤ cpuFromReads r1 r2 ∧ cpuFromReads r1 r2 ≤ 100 := by
  rw [cpuFromReads]
  by_cases hpos : 0 < ((r2.2 - r1.2 : ℤ) : ℚ)
  · rw [if_pos hpos]
    have hdI0 : 0 ≤ ((r2.1 - r1.1 : ℤ) : ℚ) := by
      exact_mod_cast sub_nonneg.mpr h1
    have hdIT : ((r2.1 - r1.1 : ℤ) : ℚ) ≤ ((r2.2 - r1.2 : ℤ) : ℚ) := by
      exact_mod_cast h2
    have hr1 : ((r2.1 - r1.1 : ℤ) : ℚ) / ((r2.2 - r1.2 : ℤ) : ℚ) ≤ 1 :=
      (div_le_one hpos).mpr hdIT
    have hr0 : 0 ≤ ((r2.1 - r1.1 : ℤ) : ℚ) / ((r2.2 - r1.2 : ℤ) : ℚ) :=
      div_nonneg hdI0 (le_of_lt hpos)
    exact ⟨round1_nonneg (by linarith), round1_le_100 (by linarith)⟩
  · rw [if_neg hpos]
    norm_num

theorem memPercentOf_range (total avail : ℤ) (h0 : 0 ≤ avail) (h1 : avail ≤ total) :
    0 ≤ memPercentOf total avail ∧ memPercentOf total avail ≤ 100 := by
  rw [memPercentOf]
  by_cases ht : total ≠ 0
  · rw [if_pos ht]
    have htp : (0 : ℚ) < (total : ℚ) := by
      have : (0 : ℤ) < total := lt_of_le_of_ne (le_trans h0 h1) (Ne.symm ht)
      exact_mod_cast this
    have hat : (avail : ℚ) ≤ (total : ℚ) := by exact_mod_cast h1
    have ha0 : (0 : ℚ) ≤ (avail : ℚ) := by exact_mod_cast h0
    have hfrac1 : ((total : ℚ) - (avail : ℚ)) / (total : ℚ) ≤ 1 := by
      rw [div_le_one htp]; linarith
    have hfrac0 : 0 ≤ ((total : ℚ) - (avail : ℚ)) / (total : ℚ) :=
      div_nonneg (by linarith) (le_of_lt htp)
    rw [mul_div_assoc]
    exact ⟨round1_nonneg (by linarith), round1_le_100 (by linarith)⟩
  · rw [if_neg ht]
    norm_num

theorem disk_range (used total : ℤ) (h0 : 0 ≤ used) (h1 : used ≤ total) :
    0 ≤ disk_usage_percent (some (used, total)) ∧
      disk_usage_percent (some (used, total)) ≤ 100 := by
  have heq : disk_usage_percent (some (used, total)) =
      if total ≠ 0 then round1 (((used : ℚ) / (total : ℚ)) * 100) else 0 := rfl
  rw [heq]
  by_cases ht : total ≠ 0
  · rw [if_pos ht]
    have htp : (0 : ℚ) < (total : ℚ) := by
      have : (0 : ℤ) < total := lt_of_le_of_ne (le_trans h0 h1) (Ne.symm ht)
      exact_mod_cast this
    have hut : (used : ℚ) ≤ (total : ℚ) := by exact_mod_cast h1
    have hu0 : (0 : ℚ) ≤ (used : ℚ) := by exact_mod_cast h0
    have hfrac1 : (used : ℚ) / (total : ℚ) ≤ 1 := by
      rw [div_le_one htp]; linarith
    have hfrac0 : 0 ≤ (used : ℚ) / (total : ℚ) := div_nonneg hu0 (le_of_lt htp)
    exact ⟨round1_nonneg (by linarith), round1_le_100 (by linarith)⟩
  · rw [if_neg ht]
    norm_num

/-- C7 as stated is false: a /proc/stat counter that steps backwards
between the two reads (as after a counter reset) drives the computed CPU
percentage to 300, far outside the interval 0 to 100. -/
theorem cpu_percent_exceeds_100 :
    cpu_usage_percent statA statB = Except.ok 300 ∧ ¬ ((300 : ℚ) ≤ 100) := by
  constructor
  · have hA : read_stat statA = Except.ok (200, 200) := rfl
    have hB : read_stat statB = Except.ok (0, 300) := rfl
    simp only [statA, statB] at hA hB
    simp only [statA, statB, cpu_usage_percent, hA, hB]
    congr 1
    norm_num [cpuFromReads, round1, round_ofNat]
  · norm_num

/-- C7 amended: the three percentages lie in the interval 0 to 100
whenever the sampled state is consistent: the idle and total cpu counters
do not step backwards and idle advances no faster than total, the memory
table has available between 0 and total, and the filesystem has used
between 0 and total. -/
theorem metrics_in_range (f1 f2 : Option (List (String × List ℤ)))
    (r1 r2 : ℤ × ℤ) (q : ℚ) (mem : List (String × ℤ)) (q2 : ℚ) (used total : ℤ) :
    (read_stat f1 = Except.ok r1 → read_stat f2 = Except.ok r2 →
      r1.1 ≤ r2.1 → r2.1 - r1.1 ≤ r2.2 - r1.2 →
      cpu_usage_percent f1 f2 = Except.ok q → 0 ≤ q ∧ q ≤ 100) ∧
    (0 ≤ (List.lookup ("MemAvailable") mem).getD 0 →
      (List.lookup ("MemAvailable") mem).getD 0 ≤ (List.lookup ("MemTotal") mem).getD 0 →
      mem_usage_percent (some mem) = Except.ok q2 → 0 ≤ q2 ∧ q2 ≤ 100) ∧
    (0 ≤ used → used ≤ total →
      0 ≤ disk_usage_percent (some (used, total)) ∧
        disk_usage_percent (some (used, total)) ≤ 100) := by
  refine ⟨?_, ?_, ?_⟩
  · intro h1 h2 hle hdelta hq
    simp only [cpu_usage_percent, h1, h2] at hq
    injection hq with hq
    rw [← hq]
    exact cpuFromReads_range r1 r2 hle hdelta
  · intro h0 h1 hq
    simp only [mem_usage_percent] at hq
    injection hq with hq
    rw [← hq]
    exact memPercentOf_range _ _ h0 h1
  · intro h0 h1
    exact disk_range used total h0 h1

theorem metrics_in_range_witness :
    ((0 : ℚ) ≤ 50 ∧ (50 : ℚ) ≤ 100) ∧ ((0 : ℚ) ≤ 75 ∧ (75 : ℚ) ≤ 100) ∧
      (0 ≤ disk_usage_percent (some (1, 2)) ∧ disk_usage_percent (some (1, 2)) ≤ 100) := by
  obtain ⟨hc, hm, hd⟩ := metrics_in_range statC statD (100, 200) (150, 300) 50 memB 75 1 2
  refine ⟨hc rfl rfl (by norm_num) (by norm_num) ?_, hm (by decide) (by decide) ?_, hd (by norm_num) (by norm_num)⟩
  · have h1 : read_stat statC = Except.ok (100, 200) := rfl
    have h2 : read_stat statD = Except.ok (150, 300) := rfl
    simp only [cpu_usage_percent, h1, h2]
    congr 1
    norm_num [cpuFromReads, round1, round_ofNat]
  · have h1 : (List.lookup ("MemTotal") memB).getD 0 = 2000000 := rfl
    have h2 : (List.lookup ("MemAvailable") memB).getD 0 = 500000 := rfl
    simp only [mem_usage_percent, h1, h2]
    congr 1
    norm_num [memPercentOf, round1, round_ofNat]

/-- C4 as stated is false: when the /proc stat or meminfo source is
unreadable the exception escapes cpu_usage_percent and mem_usage_percent
to the caller instead of yielding 0.0. -/
theorem metric_unreadable_raises :
    cpu_usage_percent none none = Except.error () ∧
      mem_usage_percent none = Except.error () :=
  ⟨rfl, rfl⟩

/-- C4 amended: disk_usage_percent is total with fallback 0.0, and
cpu_usage_percent and mem_usage_percent return 0.0 on a zero or backwards
total delta and on a zero or missing MemTotal respectively — but when the
underlying source is unreadable they raise to the caller (the supervisor
loop) rather than returning 0.0. -/
theorem metric_fallbacks (f1 f2 : Option (List (String × List ℤ)))
    (r1 r2 : ℤ × ℤ) (mem : List (String × ℤ)) :
    (read_stat f1 = Except.ok r1 → read_stat f2 = Except.ok r2 →
      r2.2 - r1.2 ≤ 0 → cpu_usage_percent f1 f2 = Except.ok 0) ∧
    ((List.lookup ("MemTotal") mem).getD 0 = 0 →
      mem_usage_percent (some mem) = Except.ok 0) ∧
    cpu_usage_percent none f2 = Except.error () ∧
    mem_usage_percent none = Except.error () ∧
    disk_usage_percent none = 0 := by
  refine ⟨?_, ?_, rfl, rfl, rfl⟩
  · intro h1 h2 hd
    simp only [cpu_usage_percent, h1, h2]
    congr 1
    have hneg : ¬ (0 < ((r2.2 - r1.2 : ℤ) : ℚ)) := by
      refine not_lt.mpr ?_
      exact_mod_cast hd
    simp only [cpuFromReads, if_neg hneg]
  · intro h
    simp only [mem_usage_percent, h]
    rfl

theorem metric_fallbacks_witness :
    cpu_usage_percent statE statE = Except.ok 0 ∧
      mem_usage_percent (some []) = Except.ok 0 := by
  obtain ⟨hc, hm, _, _, _⟩ := metric_fallbacks statE statE (0, 0) (0, 0) []
  exact ⟨hc rfl rfl (by norm_num), hm rfl⟩

/-- C6 as stated is false: with no override, a configured interface whose
address-listing command raises, and a route command whose output carries
src 10.0.0.5, get_ip returns the literal fallback without attempting the
route tier, while the claimed tier order yields the route address. -/
theorem resolve_ip_counterexample :
    get_ip cexEnv = "0.0.0.0".toList ∧
      resolveIpSpec cexEnv = "10.0.0.5".toList ∧
      get_ip cexEnv ≠ resolveIpSpec cexEnv := by
  refine ⟨rfl, by decide, by decide⟩

/-- C6 amended: get_ip equals the four-tier resolver in which the override
is returned whitespace-stripped rather than verbatim, and a raised error in
the tier 2 or tier 3 command aborts directly to the literal fallback
instead of attempting the remaining tiers; in this form the function is
total, so it never raises. -/
theorem get_ip_amended (env : IpEnv) : get_ip env = resolveIpAmended env := by
  obtain ⟨ho, hi, io, ro, si⟩ := env
  cases hho : truthy ho with
  | true => simp [get_ip, get_ip_core, resolveIpAmended, hho]
  | false =>
    cases hhi : truthy hi with
    | false =>
      cases ro with
      | error e =>
        simp [get_ip, get_ip_core, get_ip_tier34, resolveIpAmended, hho, hhi]
      | ok rout =>
        cases hfs : findSrc (pySplit rout) with
        | some ip =>
          simp [get_ip, get_ip_core, get_ip_tier34, resolveIpAmended, hho, hhi, hfs]
        | none =>
          cases si <;>
            simp [get_ip, get_ip_core, get_ip_tier34, resolveIpAmended, hho, hhi, hfs]
    | true =>
      cases io with
      | error e => simp [get_ip, get_ip_core, resolveIpAmended, hho, hhi]
      | ok out =>
        cases hfi : findIfaceIp (pyStrip out) with
        | some ip => simp [get_ip, get_ip_core, resolveIpAmended, hho, hhi, hfi]
        | none =>
          cases ro with
          | error e =>
            simp [get_ip, get_ip_core, get_ip_tier34, resolveIpAmended, hho, hhi, hfi]
          | ok rout =>
            cases hfs : findSrc (pySplit rout) with
            | some ip =>
              simp [get_ip, get_ip_core, get_ip_tier34, resolveIpAmended,
                hho, hhi, hfi, hfs]
            | none =>
              cases si <;>
                simp [get_ip, get_ip_core, get_ip_tier34, resolveIpAmended,
                  hho, hhi, hfi, hfs]

/-- C5 as stated is false: after a faulted iteration the loop keeps the very
same handle — the next successful draw is performed with the handle acquired
at startup, not with a re-created one. -/
theorem supervisor_fault_same_handle :
    (runLoop (open_display 0) [faultyInput, okInput]).2 =
      [none, some ((open_display 0).handleId, frameLines mBig snap0)] ∧
      faultyInput.fault = true :=
  ⟨rfl, rfl⟩

/-- C5 amended: the loop never re-creates nor repairs the display handle —
across any sequence of iterations, faulted or not, the state keeps the
handle acquired at startup, every drawn frame uses that same handle, and a
fault never terminates the loop: a faulted iteration merely produces no
frame. -/
theorem supervisor_loop_handle (s : SupState) (inputs : List IterInput) :
    runLoop s inputs =
      (s, inputs.map fun inp =>
        if inp.fault then none
        else some (s.handleId, frameLines inp.m inp.snap)) := by
  induction inputs with
  | nil => rfl
  | cons inp rest ih =>
    cases hf : inp.fault <;> simp [runLoop, loopIter, hf, ih]
